import Mathlib

/-!
# Flow-Conservation & Layout Engine: a shallow embedding

This file embeds the conservation and layout engine of the 2d_flows
repository (`src/components/FlowCanvas.tsx`) in Lean 4 and proves or
refutes the specification's claims about it.

Numbers: the source works with JavaScript numbers; we model them as
exact rationals (`ℚ`).  Identifiers are opaque strings in the source
(produced by `Date.now().toString()`, hence never empty) and are only
ever compared for equality; we model them as `Nat`, with `0` playing
the role of the empty string in the JavaScript truthiness guards.
-/

namespace TwoDFlows

/-- Stage record.  Modelled from the spec: the repository's `types.ts`
(declaring `Stage`) is not present under `src/`; fields follow spec §3
(`{ id, name, position, verticalOffset, color }`) and the source's usage
(`stage.id`, `stage.name`, `stage.position`, `stage.yPosition`,
`stage.color`).  The vertical offset is called `yPosition` in the code
and is optional (`stage.yPosition ?? canvasHeight / 2`). -/
structure Stage where
  id : Nat
  name : String
  position : ℚ
  yPosition : Option ℚ
  color : String
  deriving DecidableEq, Repr

/-- Flow record.  Modelled from the spec: the repository's `types.ts`
(declaring `Flow`) is not present under `src/`; fields follow spec §3
(`{ id, name, fromStageId, toStageId, value, branchIndex, color }`)
and the source's usage. -/
structure Flow where
  id : Nat
  name : String
  fromStageId : Nat
  toStageId : Nat
  value : ℚ
  branchIndex : Nat
  color : String
  deriving DecidableEq, Repr

/-- `const MIN_MARKER_HEIGHT = 480` (FlowCanvas.tsx line 17). -/
def MIN_MARKER_HEIGHT : ℚ := 480

/-- `const HEIGHT_SCALE = 8` (FlowCanvas.tsx line 18). -/
def HEIGHT_SCALE : ℚ := 8

/-- `const FLOW_SPACING = 8` (FlowCanvas.tsx line 19). -/
def FLOW_SPACING : ℚ := 8

/-- `const CANVAS_MIN_POSITION = -10` (FlowCanvas.tsx line 48). -/
def CANVAS_MIN_POSITION : ℚ := -10

/-- `const CANVAS_MAX_POSITION = 110` (FlowCanvas.tsx line 49). -/
def CANVAS_MAX_POSITION : ℚ := 110

/-- `const CANVAS_RANGE = CANVAS_MAX_POSITION - CANVAS_MIN_POSITION` -/
def CANVAS_RANGE : ℚ := CANVAS_MAX_POSITION - CANVAS_MIN_POSITION

/-- `flows.reduce((sum, f) => sum + f.value, 0)` — the sum of the values
of a list of flows, written as the source's left fold. -/
def sumValues (fs : List Flow) : ℚ :=
  fs.foldl (fun sum f => sum + f.value) 0

/-- `getIncomingFlowValue` (FlowCanvas.tsx lines 171-179): 100 if the
stage has no incoming flows, else the sum of incoming flow values. -/
def getIncomingFlowValue (stageId : Nat) (flowsToUse : List Flow) : ℚ :=
  let incomingFlows := flowsToUse.filter (fun f => f.toStageId = stageId)
  if incomingFlows.length = 0 then 100
  else sumValues incomingFlows

/-- The outgoing flows of a stage: `flows.filter(f => f.fromStageId === stageId)`. -/
def outgoingFlows (stageId : Nat) (fs : List Flow) : List Flow :=
  fs.filter (fun f => f.fromStageId = stageId)

/-- `getStageX` (FlowCanvas.tsx lines 137-141): linear map from the
`[-10, 110]` position range to `[0, canvasWidth]`. -/
def getStageX (canvasWidth : ℚ) (position : ℚ) : ℚ :=
  let normalizedPosition := (position - CANVAS_MIN_POSITION) / CANVAS_RANGE
  normalizedPosition * canvasWidth

/-- `getPositionFromX` (FlowCanvas.tsx lines 143-148): inverse map,
clamped to `[-10, 110]`. -/
def getPositionFromX (canvasWidth : ℚ) (x : ℚ) : ℚ :=
  let normalizedX := x / canvasWidth
  let position := normalizedX * CANVAS_RANGE + CANVAS_MIN_POSITION
  max CANVAS_MIN_POSITION (min CANVAS_MAX_POSITION position)

/-- `snapToTicker` (FlowCanvas.tsx lines 151-155): round to the nearest
0.1 and clamp to `[-10, 110]`.  JavaScript's `Math.round` is
`⌊x + 1/2⌋`, which is Mathlib's `round`. -/
def snapToTicker (position : ℚ) : ℚ :=
  let tickerPosition := (round (position * 10) : ℤ) / (10 : ℚ)
  max CANVAS_MIN_POSITION (min CANVAS_MAX_POSITION tickerPosition)

/-- `createFlowWithProportionalSplit` (FlowCanvas.tsx lines 274-315).
Every call site passes the component state `flows` as `existingFlows`,
so the incoming value is computed over `existingFlows` here; the fresh
id (`Date.now().toString()` in the source) is a parameter. -/
def createFlowWithProportionalSplit (fromStageId toStageId : Nat)
    (existingFlows : List Flow) (flowColor : String) (newId : Nat) :
    List Flow :=
  let incomingValue := getIncomingFlowValue fromStageId existingFlows
  let existingOutgoingFlows := outgoingFlows fromStageId existingFlows
  let numberOfChildren := existingOutgoingFlows.length + 1
  let proportionalValue := incomingValue / (numberOfChildren : ℚ)
  let updatedFlows := existingFlows.map (fun flow =>
    if flow.fromStageId = fromStageId then { flow with value := proportionalValue }
    else flow)
  let branchIndex := existingOutgoingFlows.length
  let newFlow : Flow :=
    { id := newId
      name := "Flow " ++ toString (existingFlows.length + 1)
      fromStageId := fromStageId
      toStageId := toStageId
      value := proportionalValue
      branchIndex := branchIndex
      color := flowColor }
  updatedFlows ++ [newFlow]

/-- `updatedFlows.findIndex(f => f.id === flow.id)` followed by a value
assignment at that index (FlowCanvas.tsx lines 365-368): replace the
value of the first flow with the given id, if any. -/
def setFlowValueById : List Flow → Nat → ℚ → List Flow
  | [], _, _ => []
  | f :: fs, i, v =>
    if f.id = i then { f with value := v } :: fs
    else f :: setFlowValueById fs i v

/-- The body of the `stages.forEach` loop of `balanceFlows`
(FlowCanvas.tsx lines 352-372) for one stage. -/
def balanceStage (stageId : Nat) (fs : List Flow) : List Flow :=
  let incomingValue := getIncomingFlowValue stageId fs
  let outFlows := outgoingFlows stageId fs
  if 0 < outFlows.length then
    let currentOutgoingSum := sumValues outFlows
    if 1/100 < |currentOutgoingSum - incomingValue| then
      let proportionalValue := incomingValue / (outFlows.length : ℚ)
      outFlows.foldl (fun acc flow => setFlowValueById acc flow.id proportionalValue) fs
    else fs
  else fs

/-- `balanceFlows` (FlowCanvas.tsx lines 348-375): for each stage, in
the order of the `stages` array, reset its outgoing flows to an equal
split of its incoming value when the conservation mismatch exceeds
0.01. -/
def balanceFlows (stages : List Stage) (flowsToBalance : List Flow) : List Flow :=
  stages.foldl (fun updatedFlows stage => balanceStage stage.id updatedFlows) flowsToBalance

/-- `handleFlowUpdate` (FlowCanvas.tsx lines 377-456).  `editingFlow`
carries the user-entered percentage in its `value` field (set by
`handleFlowClick`); the function converts it to an absolute value,
clamps it, redistributes the remainder over the sibling flows, runs a
full `balanceFlows` pass, re-asserts the edited value and redistributes
once more.  Note: rational division by zero is `0` in Lean while it is
`Infinity` in JavaScript; the situations in which the source divides by
zero are characterised separately by `flowUpdateFirstPassDividesByZero`. -/
def handleFlowUpdate (stages : List Stage) (flows : List Flow)
    (editingFlow : Flow) : List Flow :=
  let sourceStageId := editingFlow.fromStageId
  let incomingValue := getIncomingFlowValue sourceStageId flows
  let actualFlowValue := editingFlow.value / 100 * incomingValue
  let clampedFlowValue := max 0 (min actualFlowValue incomingValue)
  let flowWithActualValue := { editingFlow with value := clampedFlowValue }
  let updatedFlows0 := flows.map (fun f =>
    if f.id = editingFlow.id then flowWithActualValue else f)
  let outFlows := outgoingFlows sourceStageId updatedFlows0
  let updatedFlows1 :=
    if 1 < outFlows.length then
      let otherFlows := outFlows.filter (fun f => ¬(f.id = editingFlow.id))
      let otherFlowsSum := sumValues otherFlows
      let remainingValue := max 0 (incomingValue - clampedFlowValue)
      if 0 < otherFlows.length ∧ 0 < remainingValue then
        let scaleFactor := remainingValue / otherFlowsSum
        updatedFlows0.map (fun flow =>
          if flow.fromStageId = sourceStageId ∧ ¬(flow.id = editingFlow.id) then
            { flow with value := flow.value * scaleFactor }
          else flow)
      else if 0 < otherFlows.length ∧ remainingValue ≤ 0 then
        updatedFlows0.map (fun flow =>
          if flow.fromStageId = sourceStageId ∧ ¬(flow.id = editingFlow.id) then
            { flow with value := 1/100 }
          else flow)
      else updatedFlows0
    else updatedFlows0
  let updatedFlows2 := balanceFlows stages updatedFlows1
  let updatedFlows3 := updatedFlows2.map (fun f =>
    if f.id = editingFlow.id then flowWithActualValue else f)
  let finalIncomingValue := getIncomingFlowValue sourceStageId updatedFlows3
  let finalOutgoingFlows := outgoingFlows sourceStageId updatedFlows3
  if 1 < finalOutgoingFlows.length then
    let finalOtherFlows := finalOutgoingFlows.filter (fun f => ¬(f.id = editingFlow.id))
    let finalOtherFlowsSum := sumValues finalOtherFlows
    let finalRemainingValue := max 0 (finalIncomingValue - clampedFlowValue)
    if 0 < finalOtherFlows.length ∧ 0 < finalRemainingValue ∧ 0 < finalOtherFlowsSum then
      let finalScaleFactor := finalRemainingValue / finalOtherFlowsSum
      updatedFlows3.map (fun flow =>
        if flow.fromStageId = sourceStageId ∧ ¬(flow.id = editingFlow.id) then
          { flow with value := flow.value * finalScaleFactor }
        else flow)
    else updatedFlows3
  else updatedFlows3

/-- The condition under which the first redistribution pass of
`handleFlowUpdate` (FlowCanvas.tsx lines 406-414) computes
`scaleFactor = remainingValue / otherFlowsSum` with `otherFlowsSum = 0`:
the guarded branch requires only `otherFlows.length > 0 &&
remainingValue > 0`, with no check on `otherFlowsSum` (unlike the second
pass at line 442, which checks `finalOtherFlowsSum > 0`).  In JavaScript
this yields `Infinity`, and the sibling values `0 * Infinity = NaN`. -/
def flowUpdateFirstPassDividesByZero (flows : List Flow)
    (editingFlow : Flow) : Prop :=
  let sourceStageId := editingFlow.fromStageId
  let incomingValue := getIncomingFlowValue sourceStageId flows
  let actualFlowValue := editingFlow.value / 100 * incomingValue
  let clampedFlowValue := max 0 (min actualFlowValue incomingValue)
  let flowWithActualValue := { editingFlow with value := clampedFlowValue }
  let updatedFlows0 := flows.map (fun f =>
    if f.id = editingFlow.id then flowWithActualValue else f)
  let outFlows := outgoingFlows sourceStageId updatedFlows0
  let otherFlows := outFlows.filter (fun f => ¬(f.id = editingFlow.id))
  let remainingValue := max 0 (incomingValue - clampedFlowValue)
  1 < outFlows.length ∧ 0 < otherFlows.length ∧ 0 < remainingValue ∧
    sumValues otherFlows = 0

instance (flows : List Flow) (editingFlow : Flow) :
    Decidable (flowUpdateFirstPassDividesByZero flows editingFlow) := by
  unfold flowUpdateFirstPassDividesByZero
  exact inferInstance

/-- `recalculateSiblingFlowValues` (FlowCanvas.tsx lines 637-669), with
an explicit fuel parameter: the source recursion is unbounded and, per
spec §4.4/§7, its behaviour on cyclic graphs is undefined (it does not
terminate); on an acyclic graph any fuel of at least `flows.length + 1`
reaches every recursive call the source makes. -/
def recalcSiblingsFuel : Nat → Nat → List Flow → List Flow
  | 0, _, remainingFlows => remainingFlows
  | fuel + 1, parentStageId, remainingFlows =>
    let siblingFlows := outgoingFlows parentStageId remainingFlows
    if siblingFlows.length = 0 then remainingFlows
    else
      let incomingValue := getIncomingFlowValue parentStageId remainingFlows
      let proportionalValue := incomingValue / (siblingFlows.length : ℚ)
      let updatedFlows := remainingFlows.map (fun flow =>
        if flow.fromStageId = parentStageId then { flow with value := proportionalValue }
        else flow)
      siblingFlows.foldl
        (fun acc siblingFlow => recalcSiblingsFuel fuel siblingFlow.toStageId acc)
        updatedFlows

/-- `recalculateSiblingFlowValues` at the canonical fuel. -/
def recalculateSiblingFlowValues (parentStageId : Nat)
    (remainingFlows : List Flow) : List Flow :=
  recalcSiblingsFuel (remainingFlows.length + 1) parentStageId remainingFlows

/-- `handleStageDelete` (FlowCanvas.tsx lines 671-702): no-op on a root
stage (no incoming flows); otherwise removes the stage and all flows
touching it and recalculates the former parent's subtree.  The
`if (parentStageId)` truthiness test of the source (ids are non-empty
strings there) is modelled as a `≠ 0` test. -/
def handleStageDelete (stages : List Stage) (flows : List Flow)
    (stageId : Nat) : List Stage × List Flow :=
  let incomingFlows := flows.filter (fun f => f.toStageId = stageId)
  if incomingFlows.length = 0 then (stages, flows)
  else
    let parentStageId :=
      (flows.find? (fun f => f.toStageId = stageId)).map (fun f => f.fromStageId)
    let updatedStages := stages.filter (fun s => ¬(s.id = stageId))
    let removedFlows := flows.filter (fun f =>
      ¬(f.fromStageId = stageId) ∧ ¬(f.toStageId = stageId))
    let updatedFlows :=
      match parentStageId with
      | some pid => if ¬(pid = 0) then recalculateSiblingFlowValues pid removedFlows
                    else removedFlows
      | none => removedFlows
    (updatedStages, updatedFlows)

/-- `handleDisconnectParent` (FlowCanvas.tsx lines 1272-1297): remove a
single flow, recalculate the former source's siblings and the former
target's subtree.  The `if (parentStageId)` / `if (disconnectedStageId)`
truthiness tests of the source (ids are non-empty strings there) are
modelled as `≠ 0` tests. -/
def handleDisconnectParent (flows : List Flow) (flowId : Nat) : List Flow :=
  match flows.find? (fun f => f.id = flowId) with
  | none => flows
  | some flow =>
    let updatedFlows := flows.filter (fun f => ¬(f.id = flowId))
    let updatedFlows1 :=
      if ¬(flow.fromStageId = 0) then recalculateSiblingFlowValues flow.fromStageId updatedFlows
      else updatedFlows
    if ¬(flow.toStageId = 0) then recalculateSiblingFlowValues flow.toStageId updatedFlows1
    else updatedFlows1

/-- The accumulation loops of `getNodeHeight` (FlowCanvas.tsx lines
727-748): sum of `max(20, value * HEIGHT_SCALE)` over the flows with
`FLOW_SPACING` added between consecutive flows (not after the last). -/
def stackHeight : List Flow → ℚ
  | [] => 0
  | [flow] => max 20 (flow.value * HEIGHT_SCALE)
  | flow :: rest => max 20 (flow.value * HEIGHT_SCALE) + FLOW_SPACING + stackHeight rest

/-- `getNodeHeight` (FlowCanvas.tsx lines 718-761). -/
def getNodeHeight (flows : List Flow) (stageId : Nat) : ℚ :=
  let incomingFlows := flows.filter (fun f => f.toStageId = stageId)
  let outFlows := outgoingFlows stageId flows
  let incomingHeight := stackHeight incomingFlows
  let outgoingHeight := stackHeight outFlows
  let totalHeight := if incomingFlows.length = 0 then outgoingHeight else incomingHeight
  if incomingFlows.length = 0 ∧ outFlows.length = 0 then MIN_MARKER_HEIGHT
  else totalHeight

/-- `getStageY` (FlowCanvas.tsx lines 713-715):
`stage.yPosition ?? canvasHeight / 2`. -/
def getStageY (canvasHeight : ℚ) (stage : Stage) : ℚ :=
  stage.yPosition.getD (canvasHeight / 2)

/-- The geometry handed to `FlowPath` for one rendered flow
(FlowCanvas.tsx lines 1215-1228). -/
structure RenderedFlow where
  flowId : Nat
  fromX : ℚ
  fromY : ℚ
  toX : ℚ
  toY : ℚ
  width : ℚ
  deriving DecidableEq, Repr

/-- The target-side sort key of the render loop (FlowCanvas.tsx lines
1193-1196): the vertical position of a flow's source stage, or 0 when
that stage is missing. -/
def sourceStageY (stages : List Stage) (canvasHeight : ℚ) (f : Flow) : ℚ :=
  match stages.find? (fun s => s.id = f.fromStageId) with
  | some s => getStageY canvasHeight s
  | none => 0

/-- One iteration of the flow render loop (FlowCanvas.tsx lines
1145-1231): `none` when the source or target stage is missing (the
source returns `null` and renders nothing), otherwise the stacked
geometry.  `List.insertionSort` computes the same result as the
source's stable `Array.sort`. -/
def renderFlow (stages : List Stage) (flows : List Flow)
    (canvasWidth canvasHeight : ℚ) (flow : Flow) : Option RenderedFlow :=
  match stages.find? (fun s => s.id = flow.fromStageId) with
  | none => none
  | some fromStage =>
    match stages.find? (fun s => s.id = flow.toStageId) with
    | none => none
    | some toStage =>
      let fromX := getStageX canvasWidth fromStage.position
      let toX := getStageX canvasWidth toStage.position
      let fromY := getStageY canvasHeight fromStage
      let toY := getStageY canvasHeight toStage
      let fromNodeHeight := getNodeHeight flows fromStage.id
      let toNodeHeight := getNodeHeight flows toStage.id
      let fromNodeTop := fromY - fromNodeHeight / 2
      let toNodeTop := toY - toNodeHeight / 2
      let flowWidth := max 20 (flow.value * HEIGHT_SCALE)
      let flowsFromSameSource :=
        (flows.filter (fun f => f.fromStageId = flow.fromStageId)).insertionSort
          (fun a b => a.branchIndex ≤ b.branchIndex)
      let currentIndex := flowsFromSameSource.findIdx (fun f => f.id = flow.id)
      let sourceOffset :=
        (((flowsFromSameSource.take currentIndex).map
          (fun f => f.value * HEIGHT_SCALE + FLOW_SPACING)).sum)
      let sourceFlowCenter := fromNodeTop + sourceOffset + flowWidth / 2
      let flowsToSameTarget :=
        (flows.filter (fun f => f.toStageId = flow.toStageId)).insertionSort
          (fun a b =>
            sourceStageY stages canvasHeight a ≤ sourceStageY stages canvasHeight b)
      let targetIndex := flowsToSameTarget.findIdx (fun f => f.id = flow.id)
      let targetOffset :=
        (((flowsToSameTarget.take targetIndex).map
          (fun f => f.value * HEIGHT_SCALE + FLOW_SPACING)).sum)
      let targetFlowCenter := toNodeTop + targetOffset + flowWidth / 2
      let exitPointX := fromX + 5
      let entryPointX := toX - 5
      some
        { flowId := flow.id
          fromX := exitPointX
          fromY := sourceFlowCenter
          toX := entryPointX
          toY := targetFlowCenter
          width := flowWidth }

/-- The whole flow render pass: `flows.map(flow => ...)` keeping only
the flows that produce geometry. -/
def renderFlows (stages : List Stage) (flows : List Flow)
    (canvasWidth canvasHeight : ℚ) : List RenderedFlow :=
  flows.filterMap (renderFlow stages flows canvasWidth canvasHeight)

/-- A graph snapshot: the `(stages, flows)` state pair. -/
structure Graph where
  stages : List Stage
  flows : List Flow
  deriving DecidableEq, Repr

/-- The graphs reachable from an initial single-root state by the
engine operations: branch creation to a new stage (`handleCanvasClick`,
lines 536-630), flow creation to an existing stage (`handleStageClick`,
lines 469-486), a bare rebalance pass, a manual flow edit
(`handleFlowUpdate`), stage deletion (`handleStageDelete`) and flow
disconnection (`handleDisconnectParent`).  Both creation paths are
gated on the target lying strictly to the right of the source and use
fresh ids, as in the UI. -/
inductive Reachable : Graph → Prop where
  | init (root : Stage) : Reachable ⟨[root], []⟩
  | branchNew (g : Graph) (sel newStage : Stage) (newFlowId : Nat) (flowColor : String)
      (hg : Reachable g) (hsel : sel ∈ g.stages)
      (hpos : sel.position < newStage.position)
      (hfreshS : ∀ s ∈ g.stages, ¬(s.id = newStage.id))
      (hfreshF : ∀ f ∈ g.flows, ¬(f.id = newFlowId)) :
      Reachable ⟨g.stages ++ [newStage],
        balanceFlows g.stages
          (createFlowWithProportionalSplit sel.id newStage.id g.flows flowColor newFlowId)⟩
  | branchLink (g : Graph) (sel tgt : Stage) (newFlowId : Nat) (flowColor : String)
      (hg : Reachable g) (hsel : sel ∈ g.stages) (htgt : tgt ∈ g.stages)
      (hpos : sel.position < tgt.position)
      (hfreshF : ∀ f ∈ g.flows, ¬(f.id = newFlowId)) :
      Reachable ⟨g.stages,
        balanceFlows g.stages
          (createFlowWithProportionalSplit sel.id tgt.id g.flows flowColor newFlowId)⟩
  | rebalance (g : Graph) (hg : Reachable g) :
      Reachable ⟨g.stages, balanceFlows g.stages g.flows⟩
  | manualEdit (g : Graph) (f : Flow) (pct : ℚ)
      (hg : Reachable g) (hf : f ∈ g.flows) :
      Reachable ⟨g.stages, handleFlowUpdate g.stages g.flows { f with value := pct }⟩
  | stageDelete (g : Graph) (stageId : Nat) (hg : Reachable g) :
      Reachable ⟨(handleStageDelete g.stages g.flows stageId).1,
        (handleStageDelete g.stages g.flows stageId).2⟩
  | disconnect (g : Graph) (flowId : Nat) (hg : Reachable g) :
      Reachable ⟨g.stages, handleDisconnectParent g.flows flowId⟩

/-- The update applied by a triggered `balanceFlows` iteration to each
flow: set the value of the flows leaving `stageId`, leave the rest. -/
def updVal (stageId : Nat) (v : ℚ) (f : Flow) : Flow :=
  if f.fromStageId = stageId then { f with value := v } else f

/-- The conservation condition `balanceFlows` checks for one stage:
either no outgoing flows, or the outgoing sum matches the incoming
value within 0.01. -/
def balancedAt (stageId : Nat) (fs : List Flow) : Prop :=
  outgoingFlows stageId fs = [] ∨
    |sumValues (outgoingFlows stageId fs) - getIncomingFlowValue stageId fs| ≤ 1/100

/-- The stages list is topologically ordered with respect to the flows,
relative to a list of already-processed stage ids: each stage's outgoing
flows point neither at an already-processed stage nor at the stage
itself.  `TopoTodo fs [] stages` says every flow between two listed
stages goes from an earlier-listed stage to a later-listed one. -/
def TopoTodo (fs : List Flow) : List Nat → List Stage → Prop
  | _, [] => True
  | doneIds, t :: rest =>
    (∀ f ∈ fs, f.fromStageId = t.id → f.toStageId ∉ doneIds ∧ ¬(f.toStageId = t.id)) ∧
    TopoTodo fs (doneIds ++ [t.id]) rest

def decTopoTodo (fs : List Flow) : (ds : List Nat) → (todo : List Stage) →
    Decidable (TopoTodo fs ds todo)
  | _, [] => .isTrue trivial
  | ds, t :: rest =>
    have : Decidable (TopoTodo fs (ds ++ [t.id]) rest) := decTopoTodo fs (ds ++ [t.id]) rest
    inferInstanceAs (Decidable (_ ∧ _))

instance (fs : List Flow) (ds : List Nat) (todo : List Stage) :
    Decidable (TopoTodo fs ds todo) :=
  decTopoTodo fs ds todo

/-! Concrete fixtures for the conservation counterexample: a root `R`
(id 1, position 0), stages `A` (id 2, position 10), `C` (id 3,
position 20) and `B` (id 4, position 5), built by branching `R → A`,
`A → C`, `R → B`, then linking `B → A` (positions 5 < 10 allow it), and
finally editing flow `R → A` to 80%. -/

def cexR : Stage := ⟨1, "Start", 0, none, "#667eea"⟩

def cexA : Stage := ⟨2, "Stage 2", 10, none, "#667eea"⟩

def cexC : Stage := ⟨3, "Stage 3", 20, none, "#667eea"⟩

def cexB : Stage := ⟨4, "Stage 4", 5, none, "#667eea"⟩

/-- The flows after the five engine operations above: stage `A` (id 2)
receives 80 + 20 = 100 but sends out 130. -/
def cexFlows : List Flow :=
  [⟨101, "Flow " ++ toString 1, 1, 2, 80, 0, "#667eea"⟩,
   ⟨102, "Flow " ++ toString 2, 2, 3, 130, 0, "#667eea"⟩,
   ⟨103, "Flow " ++ toString 3, 1, 4, 20, 1, "#667eea"⟩,
   ⟨104, "Flow " ++ toString 4, 4, 2, 20, 0, "#667eea"⟩]

/-! ## Frame lemmas: everything but `value` is preserved -/

/-- The identity-like part of a flow: every field except `value`. -/
def skel (f : Flow) : Nat × String × Nat × Nat × Nat × String :=
  (f.id, f.name, f.fromStageId, f.toStageId, f.branchIndex, f.color)

theorem skel_setValue (f : Flow) (v : ℚ) : skel { f with value := v } = skel f := rfl

theorem setFlowValueById_map_skel (fs : List Flow) (i : Nat) (v : ℚ) :
    (setFlowValueById fs i v).map skel = fs.map skel := by
  induction fs with
  | nil => rfl
  | cons f rest ih =>
    by_cases h : f.id = i
    · simp [setFlowValueById, h, skel]
    · simp [setFlowValueById, h, ih]

theorem map_skel_foldl {α : Type} (step : List Flow → α → List Flow)
    (h : ∀ acc x, (step acc x).map skel = acc.map skel) :
    ∀ (l : List α) (acc : List Flow), (l.foldl step acc).map skel = acc.map skel := by
  intro l
  induction l with
  | nil => intro acc; rfl
  | cons x rest ih => intro acc; rw [List.foldl_cons, ih, h]

theorem balanceStage_map_skel (stageId : Nat) (fs : List Flow) :
    (balanceStage stageId fs).map skel = fs.map skel := by
  simp only [balanceStage]
  split
  · split
    · exact map_skel_foldl _ (fun acc (flow : Flow) => setFlowValueById_map_skel acc flow.id _) _ fs
    · rfl
  · rfl

theorem balanceFlows_map_skel (stages : List Stage) (fs : List Flow) :
    (balanceFlows stages fs).map skel = fs.map skel := by
  unfold balanceFlows
  exact map_skel_foldl _ (fun acc s => balanceStage_map_skel s.id acc) stages fs

theorem recalcSiblingsFuel_map_skel :
    ∀ (fuel pid : Nat) (fs : List Flow),
      (recalcSiblingsFuel fuel pid fs).map skel = fs.map skel := by
  intro fuel
  induction fuel with
  | zero => intro pid fs; rfl
  | succ n ih =>
    intro pid fs
    simp only [recalcSiblingsFuel]
    split
    · rfl
    · rw [map_skel_foldl _ (fun acc (sf : Flow) => ih sf.toStageId acc)]
      rw [List.map_map]
      refine List.map_congr_left (fun f _ => ?_)
      simp only [Function.comp_apply]
      split <;> rfl

theorem recalculateSiblingFlowValues_map_skel (pid : Nat) (fs : List Flow) :
    (recalculateSiblingFlowValues pid fs).map skel = fs.map skel :=
  recalcSiblingsFuel_map_skel _ pid fs

/-- Claim C9 — branch creation and rebalance change only flow values:
`createFlowWithProportionalSplit` preserves every input flow's `id`,
`name`, `fromStageId`, `toStageId`, `branchIndex` and `color` in place
and appends exactly one new flow; `balanceFlows` preserves all of these
in place and the length of the list. -/
theorem frame_effect_of_create_and_balance
    (fromStageId toStageId : Nat) (fs : List Flow) (color : String) (newId : Nat)
    (stages : List Stage) :
    (createFlowWithProportionalSplit fromStageId toStageId fs color newId).map skel =
      fs.map skel ++
        [(newId, "Flow " ++ toString (fs.length + 1), fromStageId, toStageId,
          (outgoingFlows fromStageId fs).length, color)] ∧
    (createFlowWithProportionalSplit fromStageId toStageId fs color newId).length =
      fs.length + 1 ∧
    (balanceFlows stages fs).map skel = fs.map skel ∧
    (balanceFlows stages fs).length = fs.length := by
  have hc : (createFlowWithProportionalSplit fromStageId toStageId fs color newId).map skel =
      fs.map skel ++
        [(newId, "Flow " ++ toString (fs.length + 1), fromStageId, toStageId,
          (outgoingFlows fromStageId fs).length, color)] := by
    unfold createFlowWithProportionalSplit
    rw [List.map_append, List.map_map]
    congr 1
    refine List.map_congr_left (fun f _ => ?_)
    simp only [Function.comp_apply]
    split <;> rfl
  have hb : (balanceFlows stages fs).map skel = fs.map skel :=
    balanceFlows_map_skel stages fs
  refine ⟨hc, ?_, hb, ?_⟩
  · have := congrArg List.length hc
    simpa using this
  · have := congrArg List.length hb
    simpa using this

/-! ## Claim C3 — equal split on branch creation -/

/-- Claim C3 — after `createFlowWithProportionalSplit` from a stage with
`k` total children (pre-existing outgoing flows plus the new one), every
outgoing flow from that stage has value `incomingValue / k` (exactly, in
rational arithmetic), and the appended flow's `branchIndex` is the count
of pre-existing outgoing flows. -/
theorem createFlow_equal_split (fromStageId toStageId : Nat)
    (fs : List Flow) (color : String) (newId : Nat) :
    (∀ f ∈ outgoingFlows fromStageId
        (createFlowWithProportionalSplit fromStageId toStageId fs color newId),
      f.value = getIncomingFlowValue fromStageId fs /
        (((outgoingFlows fromStageId fs).length : ℚ) + 1)) ∧
    ((createFlowWithProportionalSplit fromStageId toStageId fs color newId).getLast?).map
        Flow.branchIndex = some (outgoingFlows fromStageId fs).length := by
  constructor
  · intro f hf
    unfold createFlowWithProportionalSplit at hf
    unfold outgoingFlows at hf
    rw [List.filter_append, List.mem_append] at hf
    have hval : getIncomingFlowValue fromStageId fs /
        (((outgoingFlows fromStageId fs).length + 1 : ℕ) : ℚ) =
        getIncomingFlowValue fromStageId fs /
        (((outgoingFlows fromStageId fs).length : ℚ) + 1) := by
      push_cast
      ring_nf
    rcases hf with hf | hf
    · rw [List.mem_filter] at hf
      obtain ⟨hmem, hfrom⟩ := hf
      rw [List.mem_map] at hmem
      obtain ⟨g, _, hg⟩ := hmem
      by_cases hgf : g.fromStageId = fromStageId
      · rw [if_pos hgf] at hg
        rw [← hg]
        exact hval
      · rw [if_neg hgf] at hg
        rw [← hg] at hfrom
        simp only [decide_eq_true_eq] at hfrom
        exact absurd hfrom hgf
    · simp at hf
      rw [hf]
      rfl
  · unfold createFlowWithProportionalSplit
    rw [List.getLast?_concat]
    rfl

/-! ## Claim C6 — node height -/

theorem stackHeight_closed (fs : List Flow) (h : fs ≠ []) :
    stackHeight fs =
      (fs.map (fun f => max 20 (f.value * 8))).sum + 8 * ((fs.length : ℚ) - 1) := by
  induction fs with
  | nil => exact absurd rfl h
  | cons f rest ih =>
    cases rest with
    | nil =>
      show max 20 (f.value * HEIGHT_SCALE) = _
      simp [HEIGHT_SCALE]
    | cons g rest2 =>
      have hne : g :: rest2 ≠ [] := by simp
      have hstep : stackHeight (f :: g :: rest2) =
          max 20 (f.value * HEIGHT_SCALE) + FLOW_SPACING + stackHeight (g :: rest2) := rfl
      rw [hstep, ih hne]
      simp only [List.map_cons, List.sum_cons, List.length_cons, HEIGHT_SCALE, FLOW_SPACING]
      push_cast
      ring

/-- Claim C6 — `getNodeHeight`: with incoming flows, the sum of
`max(20, value*8)` over the incoming flows plus `8*(count-1)`; with no
incoming but some outgoing flows, the same formula over the outgoing
flows; with neither, the fixed minimum marker height; and the concrete
instance with incoming values 10 and 20 yields 248. -/
theorem getNodeHeight_spec (flows : List Flow) (stageId : Nat) :
    (flows.filter (fun f => f.toStageId = stageId) ≠ [] →
      getNodeHeight flows stageId =
        ((flows.filter (fun f => f.toStageId = stageId)).map
          (fun f => max 20 (f.value * 8))).sum +
        8 * (((flows.filter (fun f => f.toStageId = stageId)).length : ℚ) - 1)) ∧
    (flows.filter (fun f => f.toStageId = stageId) = [] →
      outgoingFlows stageId flows ≠ [] →
      getNodeHeight flows stageId =
        ((outgoingFlows stageId flows).map (fun f => max 20 (f.value * 8))).sum +
        8 * (((outgoingFlows stageId flows).length : ℚ) - 1)) ∧
    (flows.filter (fun f => f.toStageId = stageId) = [] →
      outgoingFlows stageId flows = [] →
      getNodeHeight flows stageId = MIN_MARKER_HEIGHT) ∧
    getNodeHeight
      [⟨11, "a", 8, 9, 10, 0, "#c"⟩, ⟨12, "b", 7, 9, 20, 0, "#c"⟩] 9 = 248 := by
  refine ⟨?_, ?_, ?_, by
    norm_num [getNodeHeight, outgoingFlows, stackHeight, sumValues, HEIGHT_SCALE,
      FLOW_SPACING, max_def]⟩
  · intro hin
    have hlen : ¬((flows.filter (fun f => f.toStageId = stageId)).length = 0) := by
      simpa [List.length_eq_zero] using hin
    simp only [getNodeHeight]
    rw [if_neg (fun hand => hlen hand.1), if_neg hlen]
    exact stackHeight_closed _ hin
  · intro hin hout
    have hlen : (flows.filter (fun f => f.toStageId = stageId)).length = 0 := by
      rw [hin]; rfl
    simp only [getNodeHeight]
    rw [if_neg (fun hand => hout (List.length_eq_zero.mp hand.2)), if_pos hlen]
    exact stackHeight_closed _ hout
  · intro hin hout
    have hlen1 : (flows.filter (fun f => f.toStageId = stageId)).length = 0 := by
      rw [hin]; rfl
    have hlen2 : (outgoingFlows stageId flows).length = 0 := by
      rw [hout]; rfl
    simp only [getNodeHeight]
    rw [if_pos ⟨hlen1, hlen2⟩]

/-! ## Claim C7 — coordinate round trip -/

/-- Claim C7 — `getStageX` sends `[-10, 110]` linearly onto
`[0, canvasWidth]` and `getPositionFromX` is its clamped inverse:
the round trip is the identity on `[-10, 110]` for any positive
canvas width. -/
theorem coordinate_round_trip (canvasWidth p : ℚ) (hw : 0 < canvasWidth)
    (hlo : CANVAS_MIN_POSITION ≤ p) (hhi : p ≤ CANVAS_MAX_POSITION) :
    getStageX canvasWidth CANVAS_MIN_POSITION = 0 ∧
    getStageX canvasWidth CANVAS_MAX_POSITION = canvasWidth ∧
    getPositionFromX canvasWidth (getStageX canvasWidth p) = p := by
  have hw0 : canvasWidth ≠ 0 := ne_of_gt hw
  simp only [CANVAS_MIN_POSITION, CANVAS_MAX_POSITION] at hlo hhi
  refine ⟨?_, ?_, ?_⟩
  · simp [getStageX, CANVAS_MIN_POSITION, CANVAS_RANGE, CANVAS_MAX_POSITION]
  · simp only [getStageX, CANVAS_MIN_POSITION, CANVAS_RANGE, CANVAS_MAX_POSITION]
    norm_num
  · simp only [getStageX, getPositionFromX, CANVAS_MIN_POSITION, CANVAS_MAX_POSITION,
      CANVAS_RANGE]
    have key : (p - -10) / (110 - -10) * canvasWidth / canvasWidth * (110 - -10) + -10 = p := by
      field_simp
      ring
    rw [key, min_eq_right hhi, max_eq_right hlo]

/-! ## Claim C10 — snapping -/

/-- Claim C10 — `snapToTicker` always lands in `[-10, 110]` and is
idempotent. -/
theorem snapToTicker_bounded_idempotent (p : ℚ) :
    CANVAS_MIN_POSITION ≤ snapToTicker p ∧ snapToTicker p ≤ CANVAS_MAX_POSITION ∧
    snapToTicker (snapToTicker p) = snapToTicker p := by
  simp only [snapToTicker, CANVAS_MIN_POSITION, CANVAS_MAX_POSITION]
  set n : ℤ := round (p * 10) with hn
  refine ⟨le_max_left _ _, max_le (by norm_num) (min_le_left _ _), ?_⟩
  rcases le_or_lt ((n : ℚ) / 10) (-10) with hlow | hlow
  · have h1 : max (-10 : ℚ) (min 110 ((n : ℚ) / 10)) = -10 := by
      rw [min_eq_right (le_trans hlow (by norm_num))]
      exact max_eq_left hlow
    rw [h1]
    have h2 : ((-10 : ℚ) * 10) = ((-100 : ℤ) : ℚ) := by norm_num
    rw [h2, round_intCast]
    norm_num
  · rcases le_or_lt (110 : ℚ) ((n : ℚ) / 10) with hhigh | hhigh
    · have h1 : max (-10 : ℚ) (min 110 ((n : ℚ) / 10)) = 110 := by
        rw [min_eq_left hhigh]
        exact max_eq_right (by norm_num)
      rw [h1]
      have h2 : ((110 : ℚ) * 10) = ((1100 : ℤ) : ℚ) := by norm_num
      rw [h2, round_intCast]
      norm_num
    · have h1 : max (-10 : ℚ) (min 110 ((n : ℚ) / 10)) = (n : ℚ) / 10 := by
        rw [min_eq_right hhigh.le]
        exact max_eq_right hlow.le
      rw [h1]
      have h2 : ((n : ℚ) / 10) * 10 = (n : ℚ) := div_mul_cancel₀ _ (by norm_num)
      rw [h2, round_intCast]
      exact h1

/-! ## Claim C4 — division by zero in the manual-edit redistribution -/

/-- Claim C4 (refuting theorem) — on a parent stage whose other
outgoing flows sum to zero while the remaining budget is positive, the
first redistribution pass of `handleFlowUpdate` reaches
`scaleFactor = remainingValue / otherFlowsSum` with `otherFlowsSum = 0`:
editing flow `e1` of stage `S` (siblings `e1`, `e2`, both of value 0;
incoming budget 100) to 50% divides 50 by 0.  In JavaScript the sibling
`e2` becomes `0 * Infinity = NaN`, not the documented 0.01 floor. -/
theorem flowUpdate_first_pass_division_by_zero :
    flowUpdateFirstPassDividesByZero
      [⟨1, "edited", 5, 6, 0, 0, "#c"⟩, ⟨2, "other", 5, 7, 0, 1, "#c"⟩]
      ⟨1, "edited", 5, 6, 50, 0, "#c"⟩ := by
  norm_num [flowUpdateFirstPassDividesByZero, getIncomingFlowValue, outgoingFlows, sumValues,
    max_def, min_def]

/-! ## Claim C8 — hanging flows are excluded from layout -/

theorem filterMap_filter_of_none {α β : Type} (F : α → Option β) (P : α → Bool)
    (h : ∀ x, P x = false → F x = none) :
    ∀ l : List α, l.filterMap F = (l.filter P).filterMap F := by
  intro l
  induction l with
  | nil => rfl
  | cons x rest ih =>
    by_cases hx : P x = true
    · rw [List.filter_cons_of_pos hx, List.filterMap_cons, List.filterMap_cons, ih]
    · rw [List.filter_cons_of_neg hx, List.filterMap_cons,
        h x (Bool.eq_false_iff.mpr hx), ih]

/-- Claim C8 — a flow whose `toStageId` matches no stage is excluded
from layout entirely: `renderFlow` yields no geometry for it, and the
whole render pass equals the pass over only the flows whose two
endpoint stages exist. -/
theorem hanging_flow_excluded (stages : List Stage) (flows : List Flow)
    (canvasWidth canvasHeight : ℚ) :
    (∀ flow : Flow, stages.find? (fun s => s.id = flow.toStageId) = none →
      renderFlow stages flows canvasWidth canvasHeight flow = none) ∧
    renderFlows stages flows canvasWidth canvasHeight =
      (flows.filter (fun f =>
        (stages.find? (fun s => s.id = f.fromStageId)).isSome ∧
        (stages.find? (fun s => s.id = f.toStageId)).isSome)).filterMap
        (renderFlow stages flows canvasWidth canvasHeight) := by
  have hnone : ∀ flow : Flow,
      stages.find? (fun s => s.id = flow.fromStageId) = none ∨
      stages.find? (fun s => s.id = flow.toStageId) = none →
      renderFlow stages flows canvasWidth canvasHeight flow = none := by
    intro flow h
    cases hfrom : stages.find? (fun s => s.id = flow.fromStageId) with
    | none => simp [renderFlow, hfrom]
    | some s =>
      rcases h with h | h
      · rw [hfrom] at h
        cases h
      · simp [renderFlow, hfrom, h]
  refine ⟨fun flow h => hnone flow (Or.inr h), ?_⟩
  unfold renderFlows
  refine filterMap_filter_of_none _ _ ?_ flows
  intro f hf
  apply hnone
  simp only [Bool.decide_and, Bool.and_eq_false_iff, decide_eq_false_iff_not,
    Option.not_isSome_iff_eq_none] at hf
  exact hf

/-! ## Claim C5 — stage deletion -/

/-- Claim C5 — `handleStageDelete` is a no-op on a stage with no
incoming flows; on a stage with at least one incoming flow it removes
exactly that stage from the stages list and exactly the flows touching
it (in either direction) from the flows list, preserving every other
stage and every other flow's identity fields. -/
theorem stageDelete_spec (stages : List Stage) (flows : List Flow) (stageId : Nat) :
    (flows.filter (fun f => f.toStageId = stageId) = [] →
      handleStageDelete stages flows stageId = (stages, flows)) ∧
    (flows.filter (fun f => f.toStageId = stageId) ≠ [] →
      (handleStageDelete stages flows stageId).1 =
        stages.filter (fun s => ¬(s.id = stageId)) ∧
      ((handleStageDelete stages flows stageId).2).map skel =
        (flows.filter (fun f =>
          ¬(f.fromStageId = stageId) ∧ ¬(f.toStageId = stageId))).map skel) := by
  constructor
  · intro h
    simp only [handleStageDelete]
    rw [if_pos (by rw [h]; rfl)]
  · intro h
    have hlen : ¬((flows.filter (fun f => f.toStageId = stageId)).length = 0) := by
      simpa [List.length_eq_zero] using h
    simp only [handleStageDelete]
    rw [if_neg hlen]
    refine ⟨rfl, ?_⟩
    cases hfind : flows.find? (fun f => f.toStageId = stageId) with
    | none => simp only [hfind, Option.map_none']
    | some fl =>
      simp only [hfind, Option.map_some']
      split
      · exact recalculateSiblingFlowValues_map_skel _ _
      · rfl

/-! ## Characterising one `balanceFlows` iteration as a map -/

theorem updVal_id (sid : Nat) (v : ℚ) (f : Flow) : (updVal sid v f).id = f.id := by
  unfold updVal
  split <;> rfl

theorem updVal_fromStageId (sid : Nat) (v : ℚ) (f : Flow) :
    (updVal sid v f).fromStageId = f.fromStageId := by
  unfold updVal
  split <;> rfl

theorem updVal_toStageId (sid : Nat) (v : ℚ) (f : Flow) :
    (updVal sid v f).toStageId = f.toStageId := by
  unfold updVal
  split <;> rfl

theorem filter_map_comm (u : Flow → Flow) (p : Flow → Bool) (hp : ∀ f, p (u f) = p f) :
    ∀ l : List Flow, (l.map u).filter p = (l.filter p).map u := by
  intro l
  induction l with
  | nil => rfl
  | cons f rest ih =>
    rw [List.map_cons, List.filter_cons, List.filter_cons, hp]
    by_cases h : p f = true
    · rw [if_pos h, if_pos h, List.map_cons, ih]
    · rw [if_neg h, if_neg h, ih]

theorem setFlowValueById_eq_map {fs : List Flow} {i : Nat} {v : ℚ}
    (h : (fs.map Flow.id).Nodup) :
    setFlowValueById fs i v =
      fs.map (fun g => if g.id = i then { g with value := v } else g) := by
  induction fs with
  | nil => rfl
  | cons f rest ih =>
    rw [List.map_cons, List.nodup_cons] at h
    by_cases hf : f.id = i
    · rw [setFlowValueById, if_pos hf, List.map_cons, if_pos hf]
      congr 1
      have hrest : ∀ g ∈ rest, (if g.id = i then { g with value := v } else g) = g := by
        intro g hg
        rw [if_neg]
        intro hgi
        have hmem : g.id ∈ rest.map Flow.id := List.mem_map_of_mem Flow.id hg
        rw [hgi, ← hf] at hmem
        exact h.1 hmem
      rw [List.map_congr_left hrest, List.map_id']
    · rw [setFlowValueById, if_neg hf, List.map_cons, if_neg hf, ih h.2]

theorem foldl_setFlowValueById_eq_map (v : ℚ) :
    ∀ (todo gs : List Flow), (gs.map Flow.id).Nodup →
      todo.foldl (fun acc f => setFlowValueById acc f.id v) gs =
        gs.map (fun g => if g.id ∈ todo.map Flow.id then { g with value := v } else g) := by
  intro todo
  induction todo with
  | nil =>
    intro gs _
    rw [List.foldl_nil]
    have : ∀ g ∈ gs, (if g.id ∈ ([] : List Flow).map Flow.id then
        { g with value := v } else g) = g := by
      intro g _
      rw [if_neg (by simp)]
    rw [List.map_congr_left this, List.map_id']
  | cons t rest ih =>
    intro gs h
    rw [List.foldl_cons, setFlowValueById_eq_map h]
    have hids : ((gs.map (fun g => if g.id = t.id then { g with value := v } else g)).map
        Flow.id) = gs.map Flow.id := by
      rw [List.map_map]
      refine List.map_congr_left (fun g _ => ?_)
      simp only [Function.comp_apply]
      split <;> rfl
    rw [ih _ (by rw [hids]; exact h), List.map_map]
    refine List.map_congr_left (fun g _ => ?_)
    simp only [Function.comp_apply]
    by_cases h1 : g.id = t.id
    · rw [if_pos h1]
      by_cases h2 : g.id ∈ rest.map Flow.id
      · rw [if_pos (show ({ g with value := v } : Flow).id ∈ rest.map Flow.id from h2),
          if_pos (by rw [List.map_cons]; exact List.mem_cons_of_mem _ h2)]
      · rw [if_neg (show ¬(({ g with value := v } : Flow).id ∈ rest.map Flow.id) from h2),
          if_pos (by rw [List.map_cons, h1]; exact List.mem_cons_self _ _)]
    · rw [if_neg h1]
      by_cases h2 : g.id ∈ rest.map Flow.id
      · rw [if_pos h2, if_pos (by rw [List.map_cons]; exact List.mem_cons_of_mem _ h2)]
      · rw [if_neg h2, if_neg]
        rw [List.map_cons, List.mem_cons]
        rintro (hc | hc)
        · exact h1 hc
        · exact h2 hc

theorem balanceStage_skip (stageId : Nat) (fs : List Flow) (h : balancedAt stageId fs) :
    balanceStage stageId fs = fs := by
  simp only [balanceStage]
  rcases h with h | h
  · rw [if_neg]
    rw [h]
    exact (lt_irrefl 0)
  · by_cases h0 : 0 < (outgoingFlows stageId fs).length
    · rw [if_pos h0, if_neg (not_lt.mpr h)]
    · rw [if_neg h0]

theorem balanceStage_triggered (stageId : Nat) (fs : List Flow)
    (hnodup : (fs.map Flow.id).Nodup)
    (h0 : 0 < (outgoingFlows stageId fs).length)
    (h1 : 1/100 < |sumValues (outgoingFlows stageId fs) - getIncomingFlowValue stageId fs|) :
    balanceStage stageId fs =
      fs.map (updVal stageId
        (getIncomingFlowValue stageId fs / ((outgoingFlows stageId fs).length : ℚ))) := by
  simp only [balanceStage]
  rw [if_pos h0, if_pos h1, foldl_setFlowValueById_eq_map _ _ _ hnodup]
  refine List.map_congr_left (fun g hg => ?_)
  unfold updVal
  by_cases hfrom : g.fromStageId = stageId
  · have hmem : g.id ∈ (outgoingFlows stageId fs).map Flow.id :=
      List.mem_map_of_mem Flow.id
        (show g ∈ outgoingFlows stageId fs from List.mem_filter.mpr ⟨hg, by simp [hfrom]⟩)
    rw [if_pos hmem, if_pos hfrom]
  · rw [if_neg, if_neg hfrom]
    intro hmem
    rw [List.mem_map] at hmem
    obtain ⟨x, hx, hxid⟩ := hmem
    have hx' := List.mem_filter.mp (show x ∈ List.filter _ fs from hx)
    have hxg : x = g := List.inj_on_of_nodup_map hnodup hx'.1 hg hxid
    have hxfrom : x.fromStageId = stageId := by simpa using hx'.2
    rw [hxg] at hxfrom
    exact hfrom hxfrom

theorem sumValues_eq_sum_map (fs : List Flow) : sumValues fs = (fs.map Flow.value).sum := by
  have key : ∀ (l : List Flow) (a : ℚ),
      l.foldl (fun s f => s + f.value) a = a + (l.map Flow.value).sum := by
    intro l
    induction l with
    | nil => intro a; simp
    | cons f rest ih =>
      intro a
      rw [List.foldl_cons, ih, List.map_cons, List.sum_cons]
      ring
  unfold sumValues
  rw [key]
  ring

theorem sumValues_eq_length_mul (l : List Flow) (v : ℚ) (h : ∀ f ∈ l, f.value = v) :
    sumValues l = (l.length : ℚ) * v := by
  rw [sumValues_eq_sum_map]
  induction l with
  | nil => simp
  | cons f rest ih =>
    rw [List.map_cons, List.sum_cons, h f (List.mem_cons_self f rest),
      ih (fun g hg => h g (List.mem_cons_of_mem f hg)), List.length_cons]
    push_cast
    ring

theorem outgoingFlows_map_updVal (t sid : Nat) (v : ℚ) (fs : List Flow) :
    outgoingFlows t (fs.map (updVal sid v)) = (outgoingFlows t fs).map (updVal sid v) := by
  unfold outgoingFlows
  exact filter_map_comm _ _ (fun f => by rw [updVal_fromStageId]) fs

theorem outgoingFlows_map_updVal_ne (t sid : Nat) (hne : ¬(t = sid)) (v : ℚ)
    (fs : List Flow) :
    outgoingFlows t (fs.map (updVal sid v)) = outgoingFlows t fs := by
  rw [outgoingFlows_map_updVal]
  have h : ∀ f ∈ outgoingFlows t fs, updVal sid v f = f := by
    intro f hf
    have hfrom : f.fromStageId = t := by
      have := List.mem_filter.mp (show f ∈ List.filter _ fs from hf)
      simpa using this.2
    unfold updVal
    rw [if_neg]
    rw [hfrom]
    exact hne
  rw [List.map_congr_left h, List.map_id']

theorem getIncomingFlowValue_map_updVal (t sid : Nat) (v : ℚ) (fs : List Flow)
    (h : ∀ f ∈ fs, f.fromStageId = sid → ¬(f.toStageId = t)) :
    getIncomingFlowValue t (fs.map (updVal sid v)) = getIncomingFlowValue t fs := by
  simp only [getIncomingFlowValue]
  rw [filter_map_comm _ _ (fun f => by rw [updVal_toStageId]) fs]
  have hid : ∀ f ∈ fs.filter (fun f => f.toStageId = t), updVal sid v f = f := by
    intro f hf
    have hf' := List.mem_filter.mp hf
    have hto : f.toStageId = t := by simpa using hf'.2
    unfold updVal
    rw [if_neg]
    intro hfrom
    exact h f hf'.1 hfrom hto
  rw [List.map_congr_left hid, List.map_id']

theorem topoTodo_map_updVal (sid : Nat) (v : ℚ) (fs : List Flow) :
    ∀ (ds : List Nat) (todo : List Stage), TopoTodo fs ds todo →
      TopoTodo (fs.map (updVal sid v)) ds todo := by
  intro ds todo
  induction todo generalizing ds with
  | nil => intro _; trivial
  | cons t rest ih =>
    intro h
    obtain ⟨h1, h2⟩ := h
    refine ⟨?_, ih _ h2⟩
    intro f hf hfrom
    rw [List.mem_map] at hf
    obtain ⟨g, hg, rfl⟩ := hf
    rw [updVal_fromStageId] at hfrom
    rw [updVal_toStageId]
    exact h1 g hg hfrom

/-- The balancing pass, processed stage by stage: if the stages still to
process are topologically ordered after the already-processed ones, all
ids are distinct, and every processed stage is already balanced, then
after the remaining fold every stage is balanced.  This is the precise
sense in which a single array-ordered pass of `balanceFlows` restores
conservation. -/
theorem balance_establishes_balancedAt :
    ∀ (todo done : List Stage) (fs : List Flow),
      (fs.map Flow.id).Nodup →
      ((done ++ todo).map Stage.id).Nodup →
      TopoTodo fs (done.map Stage.id) todo →
      (∀ d ∈ done, balancedAt d.id fs) →
      ∀ s ∈ done ++ todo,
        balancedAt s.id (todo.foldl (fun acc t => balanceStage t.id acc) fs) := by
  intro todo
  induction todo with
  | nil =>
    intro done fs _ _ _ hdone s hs
    rw [List.foldl_nil]
    exact hdone s (by simpa using hs)
  | cons t rest ih =>
    intro done fs hNF hNS hTopo hDone s hs
    obtain ⟨hHead, hTail⟩ := hTopo
    rw [List.foldl_cons]
    have happ : done ++ t :: rest = (done ++ [t]) ++ rest := by simp
    have hNS' : (((done ++ [t]) ++ rest).map Stage.id).Nodup := by rw [← happ]; exact hNS
    have hs' : s ∈ (done ++ [t]) ++ rest := by rw [← happ]; exact hs
    by_cases htrig : 0 < (outgoingFlows t.id fs).length ∧
        1/100 < |sumValues (outgoingFlows t.id fs) - getIncomingFlowValue t.id fs|
    · -- triggered: the step is a map resetting the outgoing flows of t
      obtain ⟨h0, h1⟩ := htrig
      have hlen : ((outgoingFlows t.id fs).length : ℚ) ≠ 0 :=
        Nat.cast_ne_zero.mpr (Nat.pos_iff_ne_zero.mp h0)
      set v := getIncomingFlowValue t.id fs / ((outgoingFlows t.id fs).length : ℚ) with hv
      have hmap : balanceStage t.id fs = fs.map (updVal t.id v) :=
        balanceStage_triggered t.id fs hNF h0 h1
      rw [hmap]
      have hNF' : ((fs.map (updVal t.id v)).map Flow.id).Nodup := by
        rw [List.map_map]
        have he : fs.map (Flow.id ∘ updVal t.id v) = fs.map Flow.id :=
          List.map_congr_left (fun f _ => by
            simp only [Function.comp_apply]
            rw [updVal_id])
        rw [he]
        exact hNF
      have hbal_t : balancedAt t.id (fs.map (updVal t.id v)) := by
        unfold balancedAt
        right
        have ho := outgoingFlows_map_updVal t.id t.id v fs
        have hin : getIncomingFlowValue t.id (fs.map (updVal t.id v)) =
            getIncomingFlowValue t.id fs :=
          getIncomingFlowValue_map_updVal t.id t.id v fs
            (fun f hf hfrom => (hHead f hf hfrom).2)
        have hval : ∀ f ∈ (outgoingFlows t.id fs).map (updVal t.id v), f.value = v := by
          intro f hf
          rw [List.mem_map] at hf
          obtain ⟨g, hg, rfl⟩ := hf
          have hgfrom : g.fromStageId = t.id := by
            have := List.mem_filter.mp (show g ∈ List.filter _ fs from hg)
            simpa using this.2
          unfold updVal
          rw [if_pos hgfrom]
        have hsum : sumValues ((outgoingFlows t.id fs).map (updVal t.id v)) =
            ((outgoingFlows t.id fs).length : ℚ) * v := by
          rw [sumValues_eq_length_mul _ v hval, List.length_map]
        rw [ho, hin, hsum, hv, mul_comm, div_mul_cancel₀ _ hlen, sub_self, abs_zero]
        norm_num
      have hkeep : ∀ d ∈ done, balancedAt d.id (fs.map (updVal t.id v)) := by
        intro d hd
        have hne : ¬(d.id = t.id) := by
          rw [List.map_append, List.nodup_append] at hNS
          intro he
          refine hNS.2.2 (List.mem_map_of_mem Stage.id hd) ?_
          rw [he, List.map_cons]
          exact List.mem_cons_self _ _
        have ho := outgoingFlows_map_updVal_ne d.id t.id hne v fs
        have hin : getIncomingFlowValue d.id (fs.map (updVal t.id v)) =
            getIncomingFlowValue d.id fs := by
          apply getIncomingFlowValue_map_updVal
          intro f hf hfrom hto
          exact (hHead f hf hfrom).1 (hto ▸ List.mem_map_of_mem Stage.id hd)
        unfold balancedAt
        rw [ho, hin]
        exact hDone d hd
      have hDone' : ∀ d ∈ done ++ [t], balancedAt d.id (fs.map (updVal t.id v)) := by
        intro d hd
        rcases List.mem_append.mp hd with hd | hd
        · exact hkeep d hd
        · rw [List.mem_singleton] at hd
          rw [hd]
          exact hbal_t
      have hTopo' : TopoTodo (fs.map (updVal t.id v)) ((done ++ [t]).map Stage.id) rest := by
        rw [List.map_append]
        exact topoTodo_map_updVal t.id v fs _ rest hTail
      exact ih (done ++ [t]) (fs.map (updVal t.id v)) hNF' hNS' hTopo' hDone' s hs'
    · -- not triggered: the step leaves the flows unchanged
      have hbal_t : balancedAt t.id fs := by
        unfold balancedAt
        by_cases h0 : 0 < (outgoingFlows t.id fs).length
        · right
          by_contra hc
          push_neg at hc
          exact htrig ⟨h0, hc⟩
        · left
          exact List.length_eq_zero.mp (Nat.eq_zero_of_not_pos h0)
      rw [balanceStage_skip t.id fs hbal_t]
      have hDone' : ∀ d ∈ done ++ [t], balancedAt d.id fs := by
        intro d hd
        rcases List.mem_append.mp hd with hd | hd
        · exact hDone d hd
        · rw [List.mem_singleton] at hd
          rw [hd]
          exact hbal_t
      have hTopo' : TopoTodo fs ((done ++ [t]).map Stage.id) rest := by
        rw [List.map_append]
        exact hTail
      exact ih (done ++ [t]) fs hNF hNS' hTopo' hDone' s hs'

theorem balanceFlows_balancedAt (stages : List Stage) (fs : List Flow)
    (hNF : (fs.map Flow.id).Nodup) (hNS : (stages.map Stage.id).Nodup)
    (hTopo : TopoTodo fs [] stages) :
    ∀ s ∈ stages, balancedAt s.id (balanceFlows stages fs) := by
  intro s hs
  have h := balance_establishes_balancedAt stages [] fs hNF (by simpa using hNS)
    (by simpa using hTopo) (by intro d hd; cases hd) s (by simpa using hs)
  exact h

theorem balanceFlows_fix_of_balanced :
    ∀ (stages : List Stage) (fs : List Flow),
      (∀ s ∈ stages, balancedAt s.id fs) → balanceFlows stages fs = fs := by
  intro stages
  induction stages with
  | nil => intro fs _; rfl
  | cons s rest ih =>
    intro fs h
    unfold balanceFlows
    rw [List.foldl_cons, balanceStage_skip s.id fs (h s (List.mem_cons_self s rest))]
    exact ih fs (fun d hd => h d (List.mem_cons_of_mem s hd))

/-! ## Claim C1 — conservation -/

/-- Claim C1 (counterexample) — a graph reachable from a single-root
state by branch creations, one cross-link and one manual edit violates
conservation: stage `A` (id 2) has `Out = 130 > 0` and `In = 100`, so
`|Out - In| = 30 > 0.01`.  The rebalancing pass processes stages in
array order, and the manual edit's final pass only fixes the edited
stage's own children, so the late-created parent `B` (processed after
`A`) invalidates `A`'s balance after it was repaired. -/
theorem conservation_violated_on_reachable_graph :
    Reachable ⟨[cexR, cexA, cexC, cexB], cexFlows⟩ ∧
    0 < sumValues (outgoingFlows 2 cexFlows) ∧
    ¬(|sumValues (outgoingFlows 2 cexFlows) - getIncomingFlowValue 2 cexFlows| ≤ 1/100) := by
  refine ⟨?_, by norm_num [cexFlows, outgoingFlows, sumValues],
    by norm_num [cexFlows, outgoingFlows, getIncomingFlowValue, sumValues]⟩
  have h0 : Reachable ⟨[cexR], []⟩ := Reachable.init cexR
  have h1 : Reachable ⟨[cexR, cexA],
      [⟨101, "Flow " ++ toString 1, 1, 2, 100, 0, "#667eea"⟩]⟩ := by
    have hR := Reachable.branchNew ⟨[cexR], []⟩ cexR cexA 101 "#667eea" h0
      (by simp) (by norm_num [cexR, cexA]) (by simp [cexR, cexA]) (by simp)
    have e : balanceFlows [cexR]
        (createFlowWithProportionalSplit cexR.id cexA.id [] "#667eea" 101) =
        [⟨101, "Flow " ++ toString 1, 1, 2, 100, 0, "#667eea"⟩] := by
      norm_num [balanceFlows, balanceStage, createFlowWithProportionalSplit, outgoingFlows,
        getIncomingFlowValue, sumValues, setFlowValueById, cexR, cexA, max_def, min_def]
    rw [e] at hR
    exact hR
  have h2 : Reachable ⟨[cexR, cexA, cexC],
      [⟨101, "Flow " ++ toString 1, 1, 2, 100, 0, "#667eea"⟩,
       ⟨102, "Flow " ++ toString 2, 2, 3, 100, 0, "#667eea"⟩]⟩ := by
    have hR := Reachable.branchNew _ cexA cexC 102 "#667eea" h1
      (by simp) (by norm_num [cexA, cexC]) (by simp [cexR, cexA, cexC]) (by simp)
    have e : balanceFlows [cexR, cexA] (createFlowWithProportionalSplit cexA.id cexC.id
        [⟨101, "Flow " ++ toString 1, 1, 2, 100, 0, "#667eea"⟩] "#667eea" 102) =
        [⟨101, "Flow " ++ toString 1, 1, 2, 100, 0, "#667eea"⟩,
         ⟨102, "Flow " ++ toString 2, 2, 3, 100, 0, "#667eea"⟩] := by
      norm_num [balanceFlows, balanceStage, createFlowWithProportionalSplit, outgoingFlows,
        getIncomingFlowValue, sumValues, setFlowValueById, cexR, cexA, cexC, max_def, min_def]
    rw [e] at hR
    exact hR
  have h3 : Reachable ⟨[cexR, cexA, cexC, cexB],
      [⟨101, "Flow " ++ toString 1, 1, 2, 50, 0, "#667eea"⟩,
       ⟨102, "Flow " ++ toString 2, 2, 3, 50, 0, "#667eea"⟩,
       ⟨103, "Flow " ++ toString 3, 1, 4, 50, 1, "#667eea"⟩]⟩ := by
    have hR := Reachable.branchNew _ cexR cexB 103 "#667eea" h2
      (by simp) (by norm_num [cexR, cexB]) (by simp [cexR, cexA, cexC, cexB]) (by simp)
    have e : balanceFlows [cexR, cexA, cexC] (createFlowWithProportionalSplit cexR.id cexB.id
        [⟨101, "Flow " ++ toString 1, 1, 2, 100, 0, "#667eea"⟩,
         ⟨102, "Flow " ++ toString 2, 2, 3, 100, 0, "#667eea"⟩] "#667eea" 103) =
        [⟨101, "Flow " ++ toString 1, 1, 2, 50, 0, "#667eea"⟩,
         ⟨102, "Flow " ++ toString 2, 2, 3, 50, 0, "#667eea"⟩,
         ⟨103, "Flow " ++ toString 3, 1, 4, 50, 1, "#667eea"⟩] := by
      norm_num [balanceFlows, balanceStage, createFlowWithProportionalSplit, outgoingFlows,
        getIncomingFlowValue, sumValues, setFlowValueById, cexR, cexA, cexC, cexB,
        max_def, min_def]
    rw [e] at hR
    exact hR
  have h4 : Reachable ⟨[cexR, cexA, cexC, cexB],
      [⟨101, "Flow " ++ toString 1, 1, 2, 50, 0, "#667eea"⟩,
       ⟨102, "Flow " ++ toString 2, 2, 3, 100, 0, "#667eea"⟩,
       ⟨103, "Flow " ++ toString 3, 1, 4, 50, 1, "#667eea"⟩,
       ⟨104, "Flow " ++ toString 4, 4, 2, 50, 0, "#667eea"⟩]⟩ := by
    have hR := Reachable.branchLink _ cexB cexA 104 "#667eea" h3
      (by simp) (by simp) (by norm_num [cexA, cexB]) (by simp)
    have e : balanceFlows [cexR, cexA, cexC, cexB]
        (createFlowWithProportionalSplit cexB.id cexA.id
        [⟨101, "Flow " ++ toString 1, 1, 2, 50, 0, "#667eea"⟩,
         ⟨102, "Flow " ++ toString 2, 2, 3, 50, 0, "#667eea"⟩,
         ⟨103, "Flow " ++ toString 3, 1, 4, 50, 1, "#667eea"⟩] "#667eea" 104) =
        [⟨101, "Flow " ++ toString 1, 1, 2, 50, 0, "#667eea"⟩,
         ⟨102, "Flow " ++ toString 2, 2, 3, 100, 0, "#667eea"⟩,
         ⟨103, "Flow " ++ toString 3, 1, 4, 50, 1, "#667eea"⟩,
         ⟨104, "Flow " ++ toString 4, 4, 2, 50, 0, "#667eea"⟩] := by
      norm_num [balanceFlows, balanceStage, createFlowWithProportionalSplit, outgoingFlows,
        getIncomingFlowValue, sumValues, setFlowValueById, cexR, cexA, cexC, cexB,
        max_def, min_def]
    rw [e] at hR
    exact hR
  have h5 := Reachable.manualEdit _ ⟨101, "Flow " ++ toString 1, 1, 2, 50, 0, "#667eea"⟩ 80 h4
    (by simp)
  have e : handleFlowUpdate [cexR, cexA, cexC, cexB]
      [⟨101, "Flow " ++ toString 1, 1, 2, 50, 0, "#667eea"⟩,
       ⟨102, "Flow " ++ toString 2, 2, 3, 100, 0, "#667eea"⟩,
       ⟨103, "Flow " ++ toString 3, 1, 4, 50, 1, "#667eea"⟩,
       ⟨104, "Flow " ++ toString 4, 4, 2, 50, 0, "#667eea"⟩]
      { (⟨101, "Flow " ++ toString 1, 1, 2, 50, 0, "#667eea"⟩ : Flow) with value := 80 } =
      cexFlows := by
    norm_num [handleFlowUpdate, balanceFlows, balanceStage, outgoingFlows,
      getIncomingFlowValue, sumValues, setFlowValueById, cexR, cexA, cexC, cexB, cexFlows,
      max_def, min_def]
  rw [e] at h5
  exact h5

/-- Claim C1 (amended theorem) — the conservation invariant does hold
after a `balanceFlows` pass whenever the stages list is topologically
ordered with respect to the flows (every flow between listed stages
goes from an earlier-listed stage to a later-listed one) and stage and
flow ids are distinct: every stage with positive outgoing sum then has
`|Out - In| ≤ 0.01`. -/
theorem conservation_after_rebalance_of_topo (stages : List Stage) (fs : List Flow)
    (hNF : (fs.map Flow.id).Nodup) (hNS : (stages.map Stage.id).Nodup)
    (hTopo : TopoTodo fs [] stages) :
    ∀ s ∈ stages, 0 < sumValues (outgoingFlows s.id (balanceFlows stages fs)) →
      |sumValues (outgoingFlows s.id (balanceFlows stages fs)) -
        getIncomingFlowValue s.id (balanceFlows stages fs)| ≤ 1/100 := by
  intro s hs hpos
  have h := balanceFlows_balancedAt stages fs hNF hNS hTopo s hs
  rcases h with h | h
  · rw [h] at hpos
    norm_num [sumValues] at hpos
  · exact h

theorem conservation_after_rebalance_of_topo_witness :
    |sumValues (outgoingFlows 1 (balanceFlows
        [⟨1, "r", 0, none, "#a"⟩, ⟨2, "a", 10, none, "#b"⟩]
        [⟨5, "f", 1, 2, 30, 0, "#b"⟩])) -
      getIncomingFlowValue 1 (balanceFlows
        [⟨1, "r", 0, none, "#a"⟩, ⟨2, "a", 10, none, "#b"⟩]
        [⟨5, "f", 1, 2, 30, 0, "#b"⟩])| ≤ 1/100 :=
  conservation_after_rebalance_of_topo
    [⟨1, "r", 0, none, "#a"⟩, ⟨2, "a", 10, none, "#b"⟩]
    [⟨5, "f", 1, 2, 30, 0, "#b"⟩]
    (by simp) (by simp) (by decide) ⟨1, "r", 0, none, "#a"⟩ (List.mem_cons_self _ _)
    (by norm_num [balanceFlows, balanceStage, outgoingFlows, getIncomingFlowValue,
      sumValues, setFlowValueById, max_def, min_def])

/-! ## Claim C2 — idempotence of rebalance -/

/-- Claim C2 (counterexample) — `balanceFlows` is not idempotent: on
the two-stage graph listing child `A` (id 2) before its parent `P`
(id 1), with flows `P → A` of value 7 and `A → 9` of value 3, one pass
yields values `[100, 7]` and a second pass yields `[100, 100]`; the
second value moves by 93 > 0.01. -/
theorem rebalance_not_idempotent :
    (balanceFlows [⟨2, "a", 10, none, "#c"⟩, ⟨1, "p", 0, none, "#c"⟩]
      (balanceFlows [⟨2, "a", 10, none, "#c"⟩, ⟨1, "p", 0, none, "#c"⟩]
        [⟨11, "pf", 1, 2, 7, 0, "#c"⟩, ⟨12, "af", 2, 9, 3, 0, "#c"⟩])).map Flow.value =
      [100, 100] ∧
    (balanceFlows [⟨2, "a", 10, none, "#c"⟩, ⟨1, "p", 0, none, "#c"⟩]
      [⟨11, "pf", 1, 2, 7, 0, "#c"⟩, ⟨12, "af", 2, 9, 3, 0, "#c"⟩]).map Flow.value =
      [100, 7] ∧
    ¬(|(100 : ℚ) - 7| ≤ 1/100) := by
  refine ⟨?_, ?_, by norm_num⟩ <;>
    norm_num [balanceFlows, balanceStage, outgoingFlows, getIncomingFlowValue, sumValues,
      setFlowValueById, max_def, min_def]

/-- Claim C2 (amended theorem) — `balanceFlows` is idempotent (in fact
exactly, not merely within epsilon) on every graph whose stages list is
topologically ordered with respect to the flows and whose stage and
flow ids are distinct. -/
theorem rebalance_idempotent_of_topo (stages : List Stage) (fs : List Flow)
    (hNF : (fs.map Flow.id).Nodup) (hNS : (stages.map Stage.id).Nodup)
    (hTopo : TopoTodo fs [] stages) :
    balanceFlows stages (balanceFlows stages fs) = balanceFlows stages fs :=
  balanceFlows_fix_of_balanced stages (balanceFlows stages fs)
    (balanceFlows_balancedAt stages fs hNF hNS hTopo)

theorem rebalance_idempotent_of_topo_witness :
    balanceFlows [⟨1, "r", 0, none, "#a"⟩, ⟨2, "a", 10, none, "#b"⟩]
      (balanceFlows [⟨1, "r", 0, none, "#a"⟩, ⟨2, "a", 10, none, "#b"⟩]
        [⟨5, "f", 1, 2, 30, 0, "#b"⟩]) =
    balanceFlows [⟨1, "r", 0, none, "#a"⟩, ⟨2, "a", 10, none, "#b"⟩]
      [⟨5, "f", 1, 2, 30, 0, "#b"⟩] :=
  rebalance_idempotent_of_topo
    [⟨1, "r", 0, none, "#a"⟩, ⟨2, "a", 10, none, "#b"⟩]
    [⟨5, "f", 1, 2, 30, 0, "#b"⟩]
    (by simp) (by simp) (by decide)

/-! ## Witnesses -/

theorem createFlow_equal_split_witness :
    (⟨9, "Flow " ++ toString 1, 1, 2, 100, 0, "#c"⟩ : Flow).value =
      getIncomingFlowValue 1 [] / (((outgoingFlows 1 ([] : List Flow)).length : ℚ) + 1) ∧
    ((createFlowWithProportionalSplit 1 2 [] "#c" 9).getLast?).map Flow.branchIndex =
      some (outgoingFlows 1 ([] : List Flow)).length :=
  ⟨(createFlow_equal_split 1 2 [] "#c" 9).1 ⟨9, "Flow " ++ toString 1, 1, 2, 100, 0, "#c"⟩
      (by norm_num [createFlowWithProportionalSplit, outgoingFlows, getIncomingFlowValue,
        sumValues]),
    (createFlow_equal_split 1 2 [] "#c" 9).2⟩

theorem stageDelete_spec_witness :
    handleStageDelete [⟨1, "r", 0, none, "#a"⟩] [] 7 = ([⟨1, "r", 0, none, "#a"⟩], []) ∧
    (handleStageDelete [⟨1, "r", 0, none, "#a"⟩, ⟨2, "a", 10, none, "#b"⟩]
        [⟨5, "f", 1, 2, 100, 0, "#b"⟩] 2).1 =
      [⟨1, "r", 0, none, "#a"⟩, ⟨2, "a", 10, none, "#b"⟩].filter (fun s => ¬(s.id = 2)) :=
  ⟨(stageDelete_spec [⟨1, "r", 0, none, "#a"⟩] [] 7).1 rfl,
    ((stageDelete_spec [⟨1, "r", 0, none, "#a"⟩, ⟨2, "a", 10, none, "#b"⟩]
      [⟨5, "f", 1, 2, 100, 0, "#b"⟩] 2).2 (by simp)).1⟩

theorem getNodeHeight_spec_witness :
    getNodeHeight [⟨11, "a", 8, 9, 10, 0, "#c"⟩, ⟨12, "b", 7, 9, 20, 0, "#c"⟩] 9 =
      (([(⟨11, "a", 8, 9, 10, 0, "#c"⟩ : Flow), ⟨12, "b", 7, 9, 20, 0, "#c"⟩].filter
        (fun f => f.toStageId = 9)).map (fun f => max 20 (f.value * 8))).sum +
      8 * ((([(⟨11, "a", 8, 9, 10, 0, "#c"⟩ : Flow), ⟨12, "b", 7, 9, 20, 0, "#c"⟩].filter
        (fun f => f.toStageId = 9)).length : ℚ) - 1) :=
  (getNodeHeight_spec [⟨11, "a", 8, 9, 10, 0, "#c"⟩, ⟨12, "b", 7, 9, 20, 0, "#c"⟩] 9).1
    (by simp)

theorem coordinate_round_trip_witness :
    getStageX 1200 CANVAS_MIN_POSITION = 0 ∧
    getStageX 1200 CANVAS_MAX_POSITION = 1200 ∧
    getPositionFromX 1200 (getStageX 1200 30) = 30 :=
  coordinate_round_trip 1200 30 (by norm_num) (by norm_num [CANVAS_MIN_POSITION])
    (by norm_num [CANVAS_MAX_POSITION])

theorem hanging_flow_excluded_witness :
    renderFlow [⟨1, "r", 0, none, "#a"⟩] [⟨5, "h", 1, 99, 5, 0, "#c"⟩] 1200 800
      ⟨5, "h", 1, 99, 5, 0, "#c"⟩ = none :=
  (hanging_flow_excluded [⟨1, "r", 0, none, "#a"⟩] [⟨5, "h", 1, 99, 5, 0, "#c"⟩] 1200 800).1
    ⟨5, "h", 1, 99, 5, 0, "#c"⟩ rfl

end TwoDFlows
